import Mathlib

/-!
# Verification of `transcriptor.py` (apple-podcast-transcript-extractor)

Shallow embedding of the batch transcription script.  The program is a
sequential pipeline: discovery of audio files, a per-file retry/backoff
loop around an external transcription call, and a per-file output write,
with a `continue-on-error` policy deciding whether a per-file failure
aborts the whole batch.

The external transcription call is modelled as an oracle mapping the
index of each call (0-based, per file) to its outcome: either the
returned transcript text or the raised error's message string.  The
backoff delay is a Python float that is only ever doubled; we model it
as a rational number (doubling is exact for both).  `sys.exit` codes,
the list of written files and the per-file call/sleep traces are made
explicit in the result structures.
-/

namespace Transcriptor

/-- Boolean prefix test on character lists (used to embed Python's
substring operator `in`). -/
def isPrefixOfB : List Char → List Char → Bool
  | [], _ => true
  | _ :: _, [] => false
  | a :: as, b :: bs => if a = b then isPrefixOfB as bs else false

/-- `containsSub needle hay` embeds Python's `needle in hay`: does
`needle` occur as a contiguous substring of `hay`? -/
def containsSub : List Char → List Char → Bool
  | needle, [] => isPrefixOfB needle []
  | needle, b :: bs => isPrefixOfB needle (b :: bs) || containsSub needle bs

/-- Embeds Python's `str.lower()` (restricted to its effect on ASCII
letters, the only ones the retry classifier's keyword contains). -/
def lowerStr (s : String) : String := ⟨s.toList.map Char.toLower⟩

/-- Embeds the error classification of `main`
(`"429" in err_str or "quota" in err_str.lower()`,
src/transcriptor.py line 106). -/
def isRetryable (e : String) : Bool :=
  containsSub "429".toList e.toList || containsSub "quota".toList (lowerStr e).toList

/-- Outcome of the `k`-th call (0-based) to the external transcription
collaborator for one file: the transcript text, or the error message. -/
abbrev Oracle := Nat → Except String String

/-- Exit state of the per-file `while retries > 0` loop
(src/transcriptor.py lines 100-118), together with the observable trace:
the backoff sleeps performed (in order, in seconds) and the number of
transcription calls made. -/
inductive LoopExit where
  | success (text : String) (sleeps : List ℚ) (calls : Nat)
  | fatal (errMsg : String) (sleeps : List ℚ) (calls : Nat)
  | exhausted (sleeps : List ℚ) (calls : Nat)
deriving DecidableEq, Repr

/-- Number of transcription calls made before the loop exited. -/
def LoopExit.calls : LoopExit → Nat
  | .success _ _ n => n
  | .fatal _ _ n => n
  | .exhausted _ n => n

/-- The backoff sleeps performed before the loop exited. -/
def LoopExit.sleeps : LoopExit → List ℚ
  | .success _ s _ => s
  | .fatal _ s _ => s
  | .exhausted s _ => s

/-- Did the loop exit with a transcript (`transcript is not None`)? -/
def LoopExit.isSuccess : LoopExit → Bool
  | .success _ _ _ => true
  | _ => false

/-- The transcript the loop produced, when it succeeded. -/
def LoopExit.textOf : LoopExit → Option String
  | .success t _ _ => some t
  | _ => none

/-- The `while retries > 0` loop of `main` (src/transcriptor.py lines
100-118).  `fuel` is the current value of `retries` (clamped to ℕ: the
Python loop never runs when `retries <= 0`), `backoff` the current
delay, `calls` and `sleeps` accumulate the trace.  On a retryable error
the loop sleeps `backoff`, doubles it, decrements `retries` and retries;
on any other error it exits immediately (fatal); when fuel runs out the
transcript is still `None` (exhausted). -/
def whileLoop (oracle : Oracle) : Nat → ℚ → Nat → List ℚ → LoopExit
  | 0, _, calls, sleeps => .exhausted sleeps calls
  | fuel + 1, backoff, calls, sleeps =>
    match oracle calls with
    | .ok t => .success t sleeps (calls + 1)
    | .error e =>
      if isRetryable e then
        whileLoop oracle fuel (2 * backoff) (calls + 1) (sleeps ++ [backoff])
      else
        .fatal e sleeps (calls + 1)

/-- The run configuration parsed from the CLI: `--delay`,
`--max-retries` (a Python `int`, possibly non-positive) and
`--continue-on-error`. -/
structure RunConfig where
  delay : ℚ
  maxRetries : Int
  continueOnError : Bool

/-- The CLI defaults: delay 1.0, max-retries 5, continue-on-error off. -/
def defaultCfg : RunConfig := ⟨1, 5, false⟩

/-- Per-file processing: the retry loop started with
`retries = args.max_retries`, `backoff = args.delay`
(src/transcriptor.py lines 96-118). -/
def processFile (cfg : RunConfig) (oracle : Oracle) : LoopExit :=
  whileLoop oracle cfg.maxRetries.toNat cfg.delay 0 []

/-- A discovered audio file: its path and the behaviour of the external
transcription collaborator on it. -/
structure AudioFile where
  path : String
  oracle : Oracle

/-- Index (0-based) of the last '.' of a character list, if any. -/
def lastDot : List Char → Option Nat
  | [] => none
  | c :: cs =>
    match lastDot cs with
    | some i => some (i + 1)
    | none => if c = '.' then some 0 else none

/-- Splits a character list at every occurrence of a separator (the
path component split performed by Python's `Path`). -/
def splitOnChar (sep : Char) : List Char → List (List Char)
  | [] => [[]]
  | c :: cs =>
    match splitOnChar sep cs with
    | [] => [[]]
    | g :: gs => if c = sep then [] :: g :: gs else (c :: g) :: gs

/-- Embeds Python's `Path.stem`: the final path component with its last
extension removed (a leading dot alone is not an extension). -/
def pathStem (p : String) : String :=
  let name := (splitOnChar '/' p.toList).getLastD []
  match lastDot name with
  | some i => if 0 < i then ⟨name.take i⟩ else ⟨name⟩
  | none => ⟨name⟩

/-- Destination of a transcript: `output_dir / f"{audio_path.stem}.txt"`
(src/transcriptor.py line 130). -/
def outPath (outputDir p : String) : String :=
  outputDir ++ "/" ++ pathStem p ++ ".txt"

/-- Observable result of a run: the process exit code, the transcript
files written (path and full content, in order), and the per-file loop
traces of the files whose processing started. -/
structure BatchResult where
  exitCode : Nat
  writes : List (String × String)
  traces : List LoopExit
deriving Repr

/-- The `for idx, audio_path in enumerate(audio_files, 1)` loop of
`main` (src/transcriptor.py lines 94-132).  On success the transcript is
written; otherwise `sys.exit(1)` when `--continue-on-error` is unset,
else the file is skipped. -/
def batchLoop (cfg : RunConfig) (outputDir : String) : List AudioFile → BatchResult
  | [] => ⟨0, [], []⟩
  | f :: rest =>
    let r := processFile cfg f.oracle
    match r with
    | .success t _ _ =>
      let b := batchLoop cfg outputDir rest
      ⟨b.exitCode, (outPath outputDir f.path, t) :: b.writes, r :: b.traces⟩
    | _ =>
      if cfg.continueOnError then
        let b := batchLoop cfg outputDir rest
        ⟨b.exitCode, b.writes, r :: b.traces⟩
      else
        ⟨1, [], [r]⟩

/-- The environment a run observes: whether the input path exists, and
the discovered audio files (in discovery order). -/
structure World where
  sourceExists : Bool
  files : List AudioFile

/-- `main` (src/transcriptor.py lines 74-134): exit 1 when the input
path does not exist (before any transcription), exit 0 when no audio
files are found, otherwise run the batch loop. -/
def mainRun (cfg : RunConfig) (outputDir : String) (w : World) : BatchResult :=
  if w.sourceExists = false then ⟨1, [], []⟩
  else if w.files.isEmpty then ⟨0, [], []⟩
  else batchLoop cfg outputDir w.files

/-! ## Helper lemmas -/

lemma isPrefixOfB_iff (n h : List Char) : isPrefixOfB n h = true ↔ n <+: h := by
  induction n generalizing h with
  | nil => simp [isPrefixOfB, List.nil_prefix]
  | cons a as ih =>
    cases h with
    | nil => simp [isPrefixOfB, List.prefix_nil]
    | cons b bs =>
      rw [isPrefixOfB]
      split
      · simp_all [List.cons_prefix_cons]
      · simp_all [List.cons_prefix_cons]

lemma containsSub_iff (n h : List Char) : containsSub n h = true ↔ n <:+: h := by
  induction h with
  | nil => simp [containsSub, isPrefixOfB_iff, List.prefix_nil, List.infix_nil]
  | cons b bs ih =>
    simp [containsSub, isPrefixOfB_iff, ih, List.infix_cons_iff]

lemma whileLoop_calls_le (oracle : Oracle) (n : Nat) (b : ℚ) (k : Nat) (acc : List ℚ) :
    (whileLoop oracle n b k acc).calls ≤ k + n := by
  induction n generalizing b k acc with
  | zero => simp [whileLoop, LoopExit.calls]
  | succ m ih =>
    cases horacle : oracle k with
    | ok t =>
      simp only [whileLoop, horacle, LoopExit.calls]
      omega
    | error e =>
      by_cases hr : isRetryable e = true
      · simp only [whileLoop, horacle, hr, if_true]
        have := ih (2 * b) (k + 1) (acc ++ [b])
        omega
      · simp [whileLoop, horacle, hr, LoopExit.calls]

lemma whileLoop_allRetry (oracle : Oracle) (n : Nat) :
    ∀ (k : Nat) (b : ℚ) (acc : List ℚ),
    (∀ j, j < n → ∃ e, oracle (k + j) = Except.error e ∧ isRetryable e = true) →
    whileLoop oracle n b k acc =
      .exhausted (acc ++ (List.range n).map (fun i => 2 ^ i * b)) (k + n) := by
  induction n with
  | zero => intro k b acc _; simp [whileLoop]
  | succ m ih =>
    intro k b acc h
    obtain ⟨e, he, hre⟩ := h 0 (Nat.succ_pos m)
    rw [Nat.add_zero] at he
    rw [whileLoop, he]
    simp only [hre, if_true]
    rw [ih (k + 1) (2 * b) (acc ++ [b]) (fun j hj => by
      obtain ⟨e2, he2, hre2⟩ := h (j + 1) (by omega)
      exact ⟨e2, by rw [show k + 1 + j = k + (j + 1) by omega]; exact he2, hre2⟩)]
    have hlist : (List.range (m + 1)).map (fun i => 2 ^ i * b) =
        b :: (List.range m).map (fun i => 2 ^ i * (2 * b)) := by
      rw [List.range_succ_eq_map, List.map_cons, List.map_map]
      refine congrArg₂ _ (by norm_num) ?_
      refine List.map_congr_left ?_
      intro i _
      show 2 ^ (i + 1) * b = 2 ^ i * (2 * b)
      ring
    rw [hlist]
    have : k + 1 + m = k + (m + 1) := by omega
    rw [this]
    simp

lemma batchLoop_cons_success (cfg : RunConfig) (od : String) (f : AudioFile)
    (rest : List AudioFile) (t : String) (sl : List ℚ) (n : Nat)
    (h : processFile cfg f.oracle = .success t sl n) :
    batchLoop cfg od (f :: rest) =
      ⟨(batchLoop cfg od rest).exitCode,
        (outPath od f.path, t) :: (batchLoop cfg od rest).writes,
        .success t sl n :: (batchLoop cfg od rest).traces⟩ := by
  rw [batchLoop]
  simp only [h]

lemma batchLoop_cons_fail_stop (cfg : RunConfig) (od : String) (f : AudioFile)
    (rest : List AudioFile) (hc : cfg.continueOnError = false)
    (hf : (processFile cfg f.oracle).isSuccess = false) :
    batchLoop cfg od (f :: rest) = ⟨1, [], [processFile cfg f.oracle]⟩ := by
  rw [batchLoop]
  cases hp : processFile cfg f.oracle with
  | success t s n => rw [hp] at hf; simp [LoopExit.isSuccess] at hf
  | fatal e s n => simp [hc]
  | exhausted s n => simp [hc]

lemma batchLoop_cons_fail_continue (cfg : RunConfig) (od : String) (f : AudioFile)
    (rest : List AudioFile) (hc : cfg.continueOnError = true)
    (hf : (processFile cfg f.oracle).isSuccess = false) :
    batchLoop cfg od (f :: rest) =
      ⟨(batchLoop cfg od rest).exitCode, (batchLoop cfg od rest).writes,
        processFile cfg f.oracle :: (batchLoop cfg od rest).traces⟩ := by
  rw [batchLoop]
  cases hp : processFile cfg f.oracle with
  | success t s n => rw [hp] at hf; simp [LoopExit.isSuccess] at hf
  | fatal e s n => simp [hc]
  | exhausted s n => simp [hc]

lemma batchLoop_traces_length_continue (cfg : RunConfig) (od : String)
    (files : List AudioFile) (hc : cfg.continueOnError = true) :
    (batchLoop cfg od files).traces.length = files.length := by
  induction files with
  | nil => simp [batchLoop]
  | cons f rest ih =>
    cases hp : (processFile cfg f.oracle).isSuccess with
    | true =>
      cases hq : processFile cfg f.oracle with
      | success t s n => rw [batchLoop_cons_success cfg od f rest t s n hq]; simp [ih]
      | fatal e s n => rw [hq] at hp; simp [LoopExit.isSuccess] at hp
      | exhausted s n => rw [hq] at hp; simp [LoopExit.isSuccess] at hp
    | false =>
      rw [batchLoop_cons_fail_continue cfg od f rest hc hp]
      simp [ih]

lemma batchLoop_exit_zero_of_all_success (cfg : RunConfig) (od : String)
    (files : List AudioFile)
    (h : ∀ f ∈ files, (processFile cfg f.oracle).isSuccess = true) :
    (batchLoop cfg od files).exitCode = 0 := by
  induction files with
  | nil => simp [batchLoop]
  | cons f rest ih =>
    have hf := h f (by simp)
    cases hq : processFile cfg f.oracle with
    | success t s n =>
      rw [batchLoop_cons_success cfg od f rest t s n hq]
      exact ih (fun g hg => h g (by simp [hg]))
    | fatal e s n => rw [hq] at hf; simp [LoopExit.isSuccess] at hf
    | exhausted s n => rw [hq] at hf; simp [LoopExit.isSuccess] at hf

lemma batchLoop_exit_one_of_mem_fail (cfg : RunConfig) (od : String)
    (files : List AudioFile) (hc : cfg.continueOnError = false)
    (h : ∃ f ∈ files, (processFile cfg f.oracle).isSuccess = false) :
    (batchLoop cfg od files).exitCode = 1 := by
  induction files with
  | nil => simp at h
  | cons g rest ih =>
    obtain ⟨f, hmem, hf⟩ := h
    cases hs : (processFile cfg g.oracle).isSuccess with
    | false => rw [batchLoop_cons_fail_stop cfg od g rest hc hs]
    | true =>
      cases hq : processFile cfg g.oracle with
      | success t s n =>
        rw [batchLoop_cons_success cfg od g rest t s n hq]
        apply ih
        rcases List.mem_cons.mp hmem with heq | hmem2
        · subst heq; rw [hq] at hf; simp [LoopExit.isSuccess] at hf
        · exact ⟨f, hmem2, hf⟩
      | fatal e s n => rw [hq] at hs; simp [LoopExit.isSuccess] at hs
      | exhausted s n => rw [hq] at hs; simp [LoopExit.isSuccess] at hs

/-! ## Claims -/

/-- C1: an error raised by the transcription call is classified as
retryable exactly when its message contains "429" or contains "quota"
case-insensitively; any error not so classified makes the retry loop
exit immediately as fatal, with no further call and no backoff sleep
added. -/
theorem retry_classification_and_nonretryable_is_fatal :
    (∀ e : String, isRetryable e = true ↔
        ("429".toList <:+: e.toList ∨ "quota".toList <:+: (lowerStr e).toList)) ∧
    (∀ (oracle : Oracle) (fuel : Nat) (b : ℚ) (k : Nat) (acc : List ℚ) (e : String),
        oracle k = Except.error e → isRetryable e = false →
        whileLoop oracle (fuel + 1) b k acc = .fatal e acc (k + 1)) := by
  constructor
  · intro e
    rw [isRetryable, Bool.or_eq_true, containsSub_iff, containsSub_iff]
  · intro oracle fuel b k acc e he hre
    simp [whileLoop, he, hre]

/-- Witness for C1 at concrete inputs: a quota message is retryable and
a generic error message stops the loop at once. -/
theorem retry_classification_witness :
    isRetryable "You exceeded your current QUOTA" = true ∧
    whileLoop (fun _ => Except.error "Invalid API key") 5 1 0 [] =
      .fatal "Invalid API key" [] 1 := by
  constructor
  · exact (retry_classification_and_nonretryable_is_fatal.1
      "You exceeded your current QUOTA").mpr (Or.inr (by decide))
  · exact retry_classification_and_nonretryable_is_fatal.2
      (fun _ => Except.error "Invalid API key") 4 1 0 [] "Invalid API key" rfl (by decide)

/-- C3: when every call fails with a retryable (rate-limit) error, the
sleeps performed are `delay, 2*delay, 4*delay, ...`, one per attempt,
each double the previous, with no jitter and no cap. -/
theorem backoff_doubles_from_delay (cfg : RunConfig) (oracle : Oracle)
    (h : ∀ k, k < cfg.maxRetries.toNat →
        ∃ e, oracle k = Except.error e ∧ isRetryable e = true) :
    processFile cfg oracle =
      .exhausted ((List.range cfg.maxRetries.toNat).map (fun i => 2 ^ i * cfg.delay))
        cfg.maxRetries.toNat := by
  have := whileLoop_allRetry oracle cfg.maxRetries.toNat 0 cfg.delay []
    (fun j hj => by simpa using h j hj)
  simpa [processFile] using this

/-- Witness for C3: with the defaults (delay 1.0, max-retries 5) the
sleeps are exactly 1, 2, 4, 8, 16 seconds. -/
theorem backoff_doubles_witness :
    processFile defaultCfg (fun _ => Except.error "quota") =
      .exhausted [1, 2, 4, 8, 16] 5 := by
  rw [backoff_doubles_from_delay defaultCfg (fun _ => Except.error "quota")
    (fun k _ => ⟨"quota", rfl, by decide⟩)]
  norm_num [defaultCfg, show Int.toNat 5 = 5 from rfl, List.range_succ]

/-- C4 counterexample: with the default configuration (max-retries 5)
and a file failing with a rate-limit error on every call, the file is
declared exhausted after 5 total calls, not after 1 + 5 = 6 as the
claim's reading "up to max-retries further attempts after the first
failure" requires. -/
theorem retries_after_first_counterexample :
    ¬ ((processFile defaultCfg (fun _ => Except.error "429")).calls =
        defaultCfg.maxRetries.toNat + 1) := by
  decide

/-- C4 amended: for a file whose failures are all rate-limit/quota, the
loop makes the first attempt and then up to max-retries − 1 further
attempts (max-retries total calls) before the file is declared
exhausted. -/
theorem retries_up_to_max_minus_one (cfg : RunConfig) (oracle : Oracle)
    (h : ∀ k, k < cfg.maxRetries.toNat →
        ∃ e, oracle k = Except.error e ∧ isRetryable e = true)
    (h1 : 1 ≤ cfg.maxRetries) :
    (processFile cfg oracle).calls = 1 + (cfg.maxRetries.toNat - 1) ∧
    (processFile cfg oracle).isSuccess = false := by
  have heq := whileLoop_allRetry oracle cfg.maxRetries.toNat 0 cfg.delay []
    (fun j hj => by simpa using h j hj)
  rw [processFile, heq]
  refine ⟨?_, rfl⟩
  simp only [LoopExit.calls]
  omega

/-- Witness for C4's amended claim: with defaults and persistent
rate-limit failures, 1 + 4 = 5 calls are made and the file fails. -/
theorem retries_up_to_max_minus_one_witness :
    (processFile defaultCfg (fun _ => Except.error "429")).calls = 1 + 4 ∧
    (processFile defaultCfg (fun _ => Except.error "429")).isSuccess = false := by
  have h := retries_up_to_max_minus_one defaultCfg (fun _ => Except.error "429")
    (fun k _ => ⟨"429", rfl, by decide⟩) (by decide)
  simpa using h

/-- C5: for every file and every behaviour of the transcription
collaborator, the total number of transcription calls is at most the
configured max-retries value (counting the first attempt). -/
theorem attempts_at_most_max_retries (cfg : RunConfig) (oracle : Oracle)
    (h : 0 ≤ cfg.maxRetries) :
    ((processFile cfg oracle).calls : Int) ≤ cfg.maxRetries := by
  have hle := whileLoop_calls_le oracle cfg.maxRetries.toNat cfg.delay 0 []
  rw [processFile] at *
  omega

/-- Witness for C5 at the default configuration: a file succeeding on
the first call makes at most 5 calls. -/
theorem attempts_at_most_max_retries_witness :
    ((processFile defaultCfg (fun _ => Except.ok "text")).calls : Int) ≤
      defaultCfg.maxRetries :=
  attempts_at_most_max_retries defaultCfg (fun _ => Except.ok "text") (by decide)

/-- C2: with continue-on-error false, the first file whose processing
fails (non-retryable error or retry exhaustion) makes the batch stop
with exit code 1: exactly the successful prefix is processed and
written, the failing file produces the last trace, and no later file is
attempted or written. -/
theorem first_fatal_aborts_batch (cfg : RunConfig) (od : String)
    (pre : List AudioFile) (f : AudioFile) (rest : List AudioFile)
    (hc : cfg.continueOnError = false)
    (hpre : ∀ g ∈ pre, (processFile cfg g.oracle).isSuccess = true)
    (hf : (processFile cfg f.oracle).isSuccess = false) :
    (batchLoop cfg od (pre ++ f :: rest)).exitCode = 1 ∧
    (batchLoop cfg od (pre ++ f :: rest)).traces.length = pre.length + 1 ∧
    (batchLoop cfg od (pre ++ f :: rest)).writes.length = pre.length := by
  induction pre with
  | nil =>
    rw [List.nil_append, batchLoop_cons_fail_stop cfg od f rest hc hf]
    simp
  | cons g pr ih =>
    have hg := hpre g (by simp)
    cases hq : processFile cfg g.oracle with
    | success t s n =>
      rw [List.cons_append, batchLoop_cons_success cfg od g (pr ++ f :: rest) t s n hq]
      have hrec := ih (fun x hx => hpre x (by simp [hx]))
      refine ⟨hrec.1, ?_, ?_⟩
      · simp only [List.length_cons, hrec.2.1]
      · simp only [List.length_cons, hrec.2.2]
    | fatal e s n => rw [hq] at hg; simp [LoopExit.isSuccess] at hg
    | exhausted s n => rw [hq] at hg; simp [LoopExit.isSuccess] at hg

/-- Witness for C2: one good file, then a file with a fatal error, then
a file that is never reached — exit code 1, two files attempted, one
write. -/
theorem first_fatal_aborts_batch_witness :
    (batchLoop defaultCfg "out"
        ([⟨"good.mp3", fun _ => Except.ok "A"⟩] ++
          ⟨"bad.mp3", fun _ => Except.error "boom"⟩ ::
            [⟨"later.mp3", fun _ => Except.ok "C"⟩])).exitCode = 1 ∧
    (batchLoop defaultCfg "out"
        ([⟨"good.mp3", fun _ => Except.ok "A"⟩] ++
          ⟨"bad.mp3", fun _ => Except.error "boom"⟩ ::
            [⟨"later.mp3", fun _ => Except.ok "C"⟩])).traces.length = 1 + 1 ∧
    (batchLoop defaultCfg "out"
        ([⟨"good.mp3", fun _ => Except.ok "A"⟩] ++
          ⟨"bad.mp3", fun _ => Except.error "boom"⟩ ::
            [⟨"later.mp3", fun _ => Except.ok "C"⟩])).writes.length = 1 :=
  first_fatal_aborts_batch defaultCfg "out"
    [⟨"good.mp3", fun _ => Except.ok "A"⟩]
    ⟨"bad.mp3", fun _ => Except.error "boom"⟩
    [⟨"later.mp3", fun _ => Except.ok "C"⟩]
    rfl
    (fun g hg => by
      rcases List.mem_singleton.mp hg with rfl
      decide)
    (by decide)

/-- C6: with continue-on-error true, a failing file is skipped — nothing
is written for it — and every remaining file, in particular the next
one, is still attempted. -/
theorem continue_on_error_skips_and_proceeds (cfg : RunConfig) (od : String)
    (f : AudioFile) (rest : List AudioFile) (hc : cfg.continueOnError = true)
    (hf : (processFile cfg f.oracle).isSuccess = false) :
    (batchLoop cfg od (f :: rest)).writes = (batchLoop cfg od rest).writes ∧
    (batchLoop cfg od (f :: rest)).traces =
      processFile cfg f.oracle :: (batchLoop cfg od rest).traces ∧
    (batchLoop cfg od rest).traces.length = rest.length := by
  rw [batchLoop_cons_fail_continue cfg od f rest hc hf]
  exact ⟨rfl, rfl, batchLoop_traces_length_continue cfg od rest hc⟩

/-- Witness for C6: a fatal first file followed by a good one — the good
file is still attempted and only its transcript is written. -/
theorem continue_on_error_witness :
    (batchLoop ⟨1, 5, true⟩ "out"
        (⟨"bad.mp3", fun _ => Except.error "boom"⟩ ::
          [⟨"good.mp3", fun _ => Except.ok "B"⟩])).writes =
      (batchLoop ⟨1, 5, true⟩ "out" [⟨"good.mp3", fun _ => Except.ok "B"⟩]).writes ∧
    (batchLoop ⟨1, 5, true⟩ "out"
        (⟨"bad.mp3", fun _ => Except.error "boom"⟩ ::
          [⟨"good.mp3", fun _ => Except.ok "B"⟩])).traces =
      processFile ⟨1, 5, true⟩ (fun _ => Except.error "boom") ::
        (batchLoop ⟨1, 5, true⟩ "out" [⟨"good.mp3", fun _ => Except.ok "B"⟩]).traces ∧
    (batchLoop ⟨1, 5, true⟩ "out"
        [⟨"good.mp3", fun _ => Except.ok "B"⟩]).traces.length = 1 :=
  continue_on_error_skips_and_proceeds ⟨1, 5, true⟩ "out"
    ⟨"bad.mp3", fun _ => Except.error "boom"⟩
    [⟨"good.mp3", fun _ => Except.ok "B"⟩]
    rfl (by decide)

/-- C7: every written transcript comes from a discovered file whose
retry loop succeeded with exactly that text, at the path derived from
that file; the number of writes equals the number of successful traces
and never exceeds the number of discovered files (at most one write per
file, none for failures). -/
theorem transcript_only_on_success (cfg : RunConfig) (od : String)
    (files : List AudioFile) :
    (∀ pc ∈ (batchLoop cfg od files).writes, ∃ f ∈ files, ∃ sl n,
        processFile cfg f.oracle = .success pc.2 sl n ∧ pc.1 = outPath od f.path) ∧
    (batchLoop cfg od files).writes.length =
      ((batchLoop cfg od files).traces.filter (fun r => r.isSuccess)).length ∧
    (batchLoop cfg od files).writes.length ≤ files.length := by
  induction files with
  | nil => simp [batchLoop]
  | cons f rest ih =>
    obtain ⟨ih1, ih2, ih3⟩ := ih
    cases hs : (processFile cfg f.oracle).isSuccess with
    | true =>
      cases hq : processFile cfg f.oracle with
      | success t s n =>
        rw [batchLoop_cons_success cfg od f rest t s n hq]
        refine ⟨?_, ?_, ?_⟩
        · rintro ⟨p, c⟩ hpc
          rcases List.mem_cons.mp hpc with heq | hmem
          · rw [Prod.mk.injEq] at heq
            exact ⟨f, by simp, s, n, by rw [heq.2]; exact hq, heq.1⟩
          · obtain ⟨g, hg, sl, m, h1, h2⟩ := ih1 (p, c) hmem
            exact ⟨g, by simp [hg], sl, m, h1, h2⟩
        · simp [List.filter_cons, LoopExit.isSuccess, ih2]
        · simp only [List.length_cons]
          omega
      | fatal e s n => rw [hq] at hs; simp [LoopExit.isSuccess] at hs
      | exhausted s n => rw [hq] at hs; simp [LoopExit.isSuccess] at hs
    | false =>
      cases hc : cfg.continueOnError with
      | true =>
        rw [batchLoop_cons_fail_continue cfg od f rest hc hs]
        refine ⟨?_, ?_, ?_⟩
        · rintro ⟨p, c⟩ hpc
          obtain ⟨g, hg, sl, m, h1, h2⟩ := ih1 (p, c) hpc
          exact ⟨g, by simp [hg], sl, m, h1, h2⟩
        · simp [List.filter_cons, hs, ih2]
        · simp only [List.length_cons]
          omega
      | false =>
        rw [batchLoop_cons_fail_stop cfg od f rest hc hs]
        refine ⟨?_, ?_, ?_⟩
        · rintro ⟨p, c⟩ hpc
          simp at hpc
        · simp [List.filter_cons, hs]
        · simp

/-- Witness for C7 at a concrete batch: one success and one failure
yield exactly one write, matching the one successful trace. -/
theorem transcript_only_on_success_witness :
    (batchLoop ⟨1, 5, true⟩ "out"
        [⟨"a.mp3", fun _ => Except.ok "T"⟩,
          ⟨"b.mp3", fun _ => Except.error "boom"⟩]).writes.length =
      ((batchLoop ⟨1, 5, true⟩ "out"
          [⟨"a.mp3", fun _ => Except.ok "T"⟩,
            ⟨"b.mp3", fun _ => Except.error "boom"⟩]).traces.filter
        (fun r => r.isSuccess)).length ∧
    (batchLoop ⟨1, 5, true⟩ "out"
        [⟨"a.mp3", fun _ => Except.ok "T"⟩,
          ⟨"b.mp3", fun _ => Except.error "boom"⟩]).writes.length ≤ 2 :=
  ⟨(transcript_only_on_success ⟨1, 5, true⟩ "out"
      [⟨"a.mp3", fun _ => Except.ok "T"⟩,
        ⟨"b.mp3", fun _ => Except.error "boom"⟩]).2.1,
    (transcript_only_on_success ⟨1, 5, true⟩ "out"
      [⟨"a.mp3", fun _ => Except.ok "T"⟩,
        ⟨"b.mp3", fun _ => Except.error "boom"⟩]).2.2⟩

/-- C8: a file that transcribes successfully produces exactly one write,
at `<output-dir>/<input-stem>.txt` (flat, the input's directories are
dropped), whose content is exactly the text the transcription call
returned. -/
theorem success_writes_single_stem_txt (cfg : RunConfig) (od : String)
    (f : AudioFile) (rest : List AudioFile) (t : String) (sl : List ℚ) (n : Nat)
    (h : processFile cfg f.oracle = .success t sl n) :
    (batchLoop cfg od (f :: rest)).writes =
      (od ++ "/" ++ pathStem f.path ++ ".txt", t) :: (batchLoop cfg od rest).writes := by
  rw [batchLoop_cons_success cfg od f rest t sl n h]
  rfl

/-- Witness for C8: `d/episode.mp3` transcribing to "Hello" yields the
single write `transcripts/episode.txt` containing "Hello". -/
theorem success_writes_single_stem_txt_witness :
    (batchLoop defaultCfg "transcripts"
        [⟨"d/episode.mp3", fun _ => Except.ok "Hello"⟩]).writes =
      [("transcripts/episode.txt", "Hello")] := by
  rw [success_writes_single_stem_txt defaultCfg "transcripts"
    ⟨"d/episode.mp3", fun _ => Except.ok "Hello"⟩ [] "Hello" [] 1 rfl]
  decide

/-- C9: exit code 1 when the input path does not exist, with no file
attempted; exit code 0 when no audio files are found; exit code 0 when
every file succeeds; and, with continue-on-error false, exit code 1 as
soon as any discovered file fails. -/
theorem exit_code_policy (cfg : RunConfig) (od : String) (w : World) :
    (w.sourceExists = false → mainRun cfg od w = ⟨1, [], []⟩) ∧
    (w.sourceExists = true → w.files = [] → mainRun cfg od w = ⟨0, [], []⟩) ∧
    (w.sourceExists = true →
      (∀ f ∈ w.files, (processFile cfg f.oracle).isSuccess = true) →
      (mainRun cfg od w).exitCode = 0) ∧
    (w.sourceExists = true → cfg.continueOnError = false →
      (∃ f ∈ w.files, (processFile cfg f.oracle).isSuccess = false) →
      (mainRun cfg od w).exitCode = 1) := by
  refine ⟨?_, ?_, ?_, ?_⟩
  · intro hs
    simp [mainRun, hs]
  · intro hs hnil
    simp [mainRun, hs, hnil]
  · intro hs hall
    rw [mainRun, if_neg (by simp [hs])]
    cases hnil : w.files.isEmpty with
    | true => simp
    | false =>
      rw [if_neg (by simp [hnil])]
      exact batchLoop_exit_zero_of_all_success cfg od w.files hall
  · intro hs hc hex
    obtain ⟨f, hmem, hf⟩ := hex
    rw [mainRun, if_neg (by simp [hs]),
      if_neg (by
        simp only [List.isEmpty_iff]
        intro hnil
        rw [hnil] at hmem
        simp at hmem)]
    exact batchLoop_exit_one_of_mem_fail cfg od w.files hc ⟨f, hmem, hf⟩

/-- Witness for C9 at concrete worlds: a missing input path exits 1, an
empty discovery exits 0, a succeeding file exits 0 and a failing file
exits 1. -/
theorem exit_code_policy_witness :
    mainRun defaultCfg "out" ⟨false, []⟩ = ⟨1, [], []⟩ ∧
    mainRun defaultCfg "out" ⟨true, []⟩ = ⟨0, [], []⟩ ∧
    (mainRun defaultCfg "out" ⟨true, [⟨"a.mp3", fun _ => Except.ok "T"⟩]⟩).exitCode = 0 ∧
    (mainRun defaultCfg "out" ⟨true, [⟨"a.mp3", fun _ => Except.error "boom"⟩]⟩).exitCode = 1 := by
  refine ⟨?_, ?_, ?_, ?_⟩
  · exact (exit_code_policy defaultCfg "out" ⟨false, []⟩).1 rfl
  · exact (exit_code_policy defaultCfg "out" ⟨true, []⟩).2.1 rfl rfl
  · exact (exit_code_policy defaultCfg "out" ⟨true, [⟨"a.mp3", fun _ => Except.ok "T"⟩]⟩).2.2.1
      rfl (fun g hg => by rcases List.mem_singleton.mp hg with rfl; decide)
  · exact (exit_code_policy defaultCfg "out"
        ⟨true, [⟨"a.mp3", fun _ => Except.error "boom"⟩]⟩).2.2.2
      rfl rfl ⟨⟨"a.mp3", fun _ => Except.error "boom"⟩, by simp, by decide⟩

/-- C10: with a non-positive max-retries every file gets zero
transcription calls and counts as a failure: the batch aborts with exit
code 1 when continue-on-error is false, and otherwise processes every
file, writing nothing and exiting 0. -/
theorem nonpositive_max_retries_zero_attempts (cfg : RunConfig) (oracle : Oracle)
    (h : cfg.maxRetries ≤ 0) :
    processFile cfg oracle = .exhausted [] 0 ∧
    (∀ (od : String) (f : AudioFile) (rest : List AudioFile),
        cfg.continueOnError = false →
        batchLoop cfg od (f :: rest) = ⟨1, [], [.exhausted [] 0]⟩) ∧
    (∀ (od : String) (files : List AudioFile), cfg.continueOnError = true →
        (batchLoop cfg od files).writes = [] ∧
        (batchLoop cfg od files).exitCode = 0) := by
  have hzero : cfg.maxRetries.toNat = 0 := Int.toNat_of_nonpos h
  have hproc : ∀ g : Oracle, processFile cfg g = .exhausted [] 0 := by
    intro g
    rw [processFile, hzero, whileLoop]
  refine ⟨hproc oracle, ?_, ?_⟩
  · intro od f rest hc
    rw [batchLoop_cons_fail_stop cfg od f rest hc (by rw [hproc f.oracle]; rfl),
      hproc f.oracle]
  · intro od files hc
    induction files with
    | nil => simp [batchLoop]
    | cons f rest ih =>
      rw [batchLoop_cons_fail_continue cfg od f rest hc (by rw [hproc f.oracle]; rfl)]
      exact ih

/-- Witness for C10: max-retries 0 gives zero calls and, with
continue-on-error false, an immediate exit 1 on the first file. -/
theorem nonpositive_max_retries_witness :
    processFile ⟨1, 0, false⟩ (fun _ => Except.ok "never") = .exhausted [] 0 ∧
    batchLoop ⟨1, 0, false⟩ "out" [⟨"a.mp3", fun _ => Except.ok "never"⟩] =
      ⟨1, [], [.exhausted [] 0]⟩ :=
  ⟨(nonpositive_max_retries_zero_attempts ⟨1, 0, false⟩
      (fun _ => Except.ok "never") (by decide)).1,
    (nonpositive_max_retries_zero_attempts ⟨1, 0, false⟩
      (fun _ => Except.ok "never") (by decide)).2.1 "out"
      ⟨"a.mp3", fun _ => Except.ok "never"⟩ [] rfl⟩

end Transcriptor
